import Mathlib

/-!
Verification of the ENOS configuration module
(`lib/ansible/modules/network/enos/enos_config.py`).

The module compares a candidate block-indented configuration against a
device's running configuration and produces the ordered command set to push.
The module file itself contains `get_running_config`, `get_candidate`, `run`
and `main`; those are embedded here directly from the source.  The
hierarchical configuration model (`NetworkConfig`), its `difference` engine,
`dumps`, and the argument-validation framework are external collaborators
described by the specification, and are modelled here from the spec's words.
-/

set_option autoImplicit false

/-- A configuration line: its literal command text and the ordered chain of
ancestor command texts, root first.  Equality considers `text` and `parents`
only, matching the spec's data-model invariant. -/
structure ConfigLine where
  text : String
  parents : List String
deriving DecidableEq

/-- The parameters of one module invocation, mirroring the argument spec of
`main` (src, lines/commands, parents, before, after, match, replace, config,
backup).  `none` models a parameter the caller did not supply. -/
structure Params where
  src : Option String
  lines : Option (List String)
  parents : Option (List String)
  before : Option (List String)
  after : Option (List String)
  match_ : String
  replace : String
  config : Option String
  backup : Bool
deriving DecidableEq

/-- The observable outcome of `run`: the `commands` entry of the result dict,
the `diff` entry, the `changed` flag, and (instrumentation of the external
push collaborator) the command list handed to `load_config`, `none` when no
push was performed. -/
structure RunResult where
  commands : Option (List String)
  diff : Option String
  changed : Bool
  pushed : Option (List String)
deriving DecidableEq

/-- The observable outcome of `main`: `changed`, the stored pre-change backup
text (`__backup__`, `none` when backup was not requested), and the fields
propagated from `run`. -/
structure MainResult where
  changed : Bool
  backup : Option String
  commands : Option (List String)
  diff : Option String
  pushed : Option (List String)
deriving DecidableEq

/-- Python truthiness of an optional string parameter: `None` and the empty
string are falsy. -/
def optStrTruthy (o : Option String) : Bool :=
  decide (o.getD "" ≠ "")

/-- Python truthiness of an optional list parameter: `None` and the empty
list are falsy. -/
def optListTruthy (o : Option (List String)) : Bool :=
  decide (o.getD [] ≠ [])

/-- Modelled from the spec: line splitting used by the `NetworkConfig` parser
(the parser itself is not under `src/`).  Splits a character stream at
newline characters. -/
def splitLines : List Char → List (List Char)
  | [] => [[]]
  | c :: rest =>
    if c = '\n' then [] :: splitLines rest
    else
      match splitLines rest with
      | [] => [[c]]
      | h :: t => (c :: h) :: t

/-- Modelled from the spec: classification of one raw line by the
`NetworkConfig` parser.  Blank lines and comment lines (leading `!`) are
skipped; otherwise the line yields its indent depth (count of leading
spaces) and its body text. -/
def lineEntry (cs : List Char) : Option (Nat × String) :=
  let body := cs.dropWhile (fun ch => ch = ' ')
  match body with
  | [] => none
  | c :: _ => if c = '!' then none else some (cs.length - body.length, String.mk body)

/-- Modelled from the spec: the indentation-inference loop of the
`NetworkConfig` parser.  The first argument is the stack of currently open
ancestor blocks, innermost first, each with its indent level.  A strictly
deeper indent opens a child block; an indent returning to an open level
closes back to the matching ancestor; an indent matching no open ancestor
level is a `MalformedConfigError`. -/
def parseLines : List (Nat × String) → List (Nat × String) → Except String (List ConfigLine)
  | _, [] => Except.ok []
  | stack, (ind, txt) :: rest =>
    let popped := stack.takeWhile (fun f => ind ≤ f.1)
    let stack2 := stack.dropWhile (fun f => ind ≤ f.1)
    if !popped.isEmpty && popped.all (fun f => f.1 != ind) then
      Except.error "MalformedConfigError"
    else
      match parseLines ((ind, txt) :: stack2) rest with
      | Except.error e => Except.error e
      | Except.ok tail =>
        Except.ok ({ text := txt, parents := (stack2.map Prod.snd).reverse } :: tail)

/-- Modelled from the spec: `NetworkConfig` parsing of raw indent-delimited
configuration text (the `parse`/`load` operation, not under `src/`).  Splits
the text into lines, skips blanks and `!` comments, and infers nesting from
relative indentation.  Returns the `items` sequence: all lines in
depth-first, indent-preserving order. -/
def parse (text : String) : Except String (List ConfigLine) :=
  parseLines [] ((splitLines text.data).filterMap lineEntry)

/-- Modelled from the spec: `NetworkConfig` serialization back to indented
text, one space of indent per nesting level (`indent=1`), depth-first in
`items` order. -/
def serialize (cfg : List ConfigLine) : String :=
  String.intercalate "\n"
    (cfg.map (fun l => String.mk (List.replicate l.parents.length ' ') ++ l.text))

/-- Modelled from the spec: `NetworkConfig.add` / `build(lines, parents)` —
constructs tree items directly from an explicit ordered command list and an
explicit parent path, without indentation inference: the chain of parent
lines, then each command with the full parent path. -/
def addCommands (parents : List String) (lines : List String) : List ConfigLine :=
  (List.range parents.length).map (fun i => { text := parents.getD i "", parents := parents.take i })
    ++ lines.map (fun t => { text := t, parents := parents })

/-- Modelled from the spec: `dumps(commands, 'commands')` followed by
splitting on newlines — the CommandAssembler serialization of diff output to
the final push-ready sequence of command strings, in `items` order. -/
def dumps_commands (items : List ConfigLine) : List String :=
  items.map ConfigLine.text

/-- Modelled from the spec: PathMatcher subtree selection — the lines of a
tree lying strictly inside the subsection identified by the parent path
(every line whose parent chain extends the path; the empty path selects the
whole tree). -/
def subtree (T : List ConfigLine) (path : List String) : List ConfigLine :=
  T.filter (fun l => path.isPrefixOf l.parents)

/-- Modelled from the spec: the ordered sequence of command texts of the
immediate children of the parent block `P` in a tree. -/
def childTexts (T : List ConfigLine) (P : List String) : List String :=
  (T.filter (fun l => decide (l.parents = P))).map ConfigLine.text

/-- Modelled from the spec: position-sensitive mismatch used by
`match=strict` — a candidate line mismatches when, at some ordinal position
of its parent's child sequence where the candidate holds this line's text,
the running config's child sequence holds something else (or nothing). -/
def strictMismatch (c r : List ConfigLine) (l : ConfigLine) : Bool :=
  (List.range (childTexts c l.parents).length).any
    (fun i => decide ((childTexts c l.parents)[i]? = some l.text
                       ∧ (childTexts r l.parents)[i]? ≠ some l.text))

/-- Modelled from the spec: whether `a` is a (strict) ancestor of `l` in the
tree order: `a`'s own chain extended by its text is a prefix of `l`'s
chain. -/
def isAncestorOf (a l : ConfigLine) : Bool :=
  List.isPrefixOf (a.parents ++ [a.text]) l.parents

/-- Modelled from the spec: the match-policy selection predicate of the
DiffEngine.  A candidate line (inside the path's subsection) is selected as
missing according to the match policy: `line` is set-membership on
(text, parents) anywhere in the running subtree; `strict` is
position-sensitive within the parent block; `exact` selects the whole block
when the ordered child sequences diverge anywhere. -/
def selectedB (cand run : List ConfigLine) (path : List String) (m : String)
    (l : ConfigLine) : Bool :=
  path.isPrefixOf l.parents &&
    (if m = "line" then !(decide (l ∈ subtree run path))
     else if m = "strict" then strictMismatch (subtree cand path) (subtree run path) l
     else if m = "exact" then
       !(decide (childTexts (subtree cand path) l.parents
                  = childTexts (subtree run path) l.parents))
     else false)

/-- Modelled from the spec: `replace=block` widening — a line is emitted when
any selected line's parent block contains it (the entire candidate block of a
differing line is emitted, including nested descendants). -/
def blockSel (cand run : List ConfigLine) (path : List String) (m : String)
    (l : ConfigLine) : Bool :=
  (subtree cand path).any
    (fun x => selectedB cand run path m x && List.isPrefixOf x.parents l.parents)

/-- Modelled from the spec: emission with parent context — the selected lines
in candidate depth-first order, each preceded by its ancestor lines (a parent
line is synthesized to provide context even when it already exists in the
running config). -/
def emitWithContext (T : List ConfigLine) (sel : ConfigLine → Bool) : List ConfigLine :=
  T.filter (fun l => sel l || T.any (fun m => sel m && isAncestorOf l m))

/-- Modelled from the spec: the full candidate subtree under a parent path,
verbatim, with the path's own lines synthesized as context — what the spec
says `match=none` returns as the command set. -/
def fullSubtreeUnderPath (cand : List ConfigLine) (path : List String) : List ConfigLine :=
  emitWithContext cand (fun l => path.isPrefixOf l.parents)

/-- Modelled from the spec: the DiffEngine contract
`diff(candidate, running, path, match, replace)` (the `NetworkConfig`
`difference` engine is not under `src/`).  `replace=config` bypasses diffing
and pushes the whole candidate; `match=none` skips diffing and returns the
full candidate subtree under `path` verbatim; otherwise the match policy
selects missing lines, `replace=block` widens the selection to whole blocks,
and the result is emitted in candidate depth-first order with parent
context. -/
def difference (cand run : List ConfigLine) (path : List String) (m r : String) :
    List ConfigLine :=
  if r = "config" then cand
  else if m = "none" then fullSubtreeUnderPath cand path
  else emitWithContext cand
    (if r = "block" then blockSel cand run path m else selectedB cand run path m)

/-- Embeds `get_running_config` (source lines 176-180): the base config is
the `config` parameter when truthy, otherwise the text fetched from the
device (`get_config`, modelled as the `device` argument); the chosen text is
parsed as an indent-1 configuration tree. -/
def get_running_config (p : Params) (device : String) : Except String (List ConfigLine) :=
  if optStrTruthy p.config then parse (p.config.getD "") else parse device

/-- Embeds `get_candidate` (source lines 183-193).  The filesystem of the
control host is modelled as `fs`; `loadfp` reads the file at the `src` path
and raises `IOError` when it does not exist, in which case the source falls
back to `load`, parsing the `src` string itself as raw configuration text.
Only when `src` is falsy are the inline `lines` (with the optional `parents`
path) used, via `add`. -/
def get_candidate (p : Params) (fs : String → Option String) :
    Except String (List ConfigLine) :=
  if optStrTruthy p.src then
    match fs (p.src.getD "") with
    | some contents => parse contents
    | none => parse (p.src.getD "")
  else if optListTruthy p.lines then
    Except.ok (addCommands (p.parents.getD []) (p.lines.getD []))
  else
    Except.ok []

/-- Embeds the command-computation half of `run` (source lines 196-213):
build the candidate; when `match != 'none' and replace != 'config'`, fetch
the running config, rebuild it as a `NetworkConfig` (the source re-wraps the
tree, modelled as re-parsing its serialization) and take the `difference`
under `path = parents`; otherwise take `candidate.items` unchanged. -/
def computeCommands (p : Params) (fs : String → Option String) (device : String) :
    Except String (List ConfigLine) :=
  match get_candidate p fs with
  | Except.error e => Except.error e
  | Except.ok candidate =>
    if p.match_ ≠ "none" ∧ p.replace ≠ "config" then
      match get_running_config p device with
      | Except.error e => Except.error e
      | Except.ok contents =>
        match parse (serialize contents) with
        | Except.error e => Except.error e
        | Except.ok configobj =>
          Except.ok (difference candidate configobj (p.parents.getD []) p.match_ p.replace)
    else
      Except.ok candidate

/-- Embeds the command-assembly step of `run` (source lines 216-223): the
computed items are dumped to command strings; when `lines` or `src` was
supplied (truthy), `before` is prepended and `after` appended when each is
truthy. -/
def assembleCommands (p : Params) (commands : List ConfigLine) : List String :=
  if optListTruthy p.lines || optStrTruthy p.src then
    (if optListTruthy p.before then p.before.getD [] ++ dumps_commands commands
     else dumps_commands commands)
      ++ (if optListTruthy p.after then p.after.getD [] else [])
  else dumps_commands commands

/-- Embeds `run` (source lines 196-231).  When the computed command set is
empty nothing further happens: no `commands` entry, no push, `changed` stays
false.  Otherwise the assembled commands are recorded (only when `lines` or
`src` was supplied) and handed to the push collaborator `load_config`
(modelled by `push`); a non-empty returned diff sets `changed` and the
`diff` entry. -/
def run (p : Params) (fs : String → Option String) (device : String)
    (push : List String → String) : Except String RunResult :=
  match computeCommands p fs device with
  | Except.error e => Except.error e
  | Except.ok commands =>
    if commands = [] then
      Except.ok { commands := none, diff := none, changed := false, pushed := none }
    else if push (assembleCommands p commands) = "" then
      Except.ok { commands := if optListTruthy p.lines || optStrTruthy p.src
                    then some (assembleCommands p commands) else none,
                  diff := none, changed := false,
                  pushed := some (assembleCommands p commands) }
    else
      Except.ok { commands := if optListTruthy p.lines || optStrTruthy p.src
                    then some (assembleCommands p commands) else none,
                  diff := some (push (assembleCommands p commands)), changed := true,
                  pushed := some (assembleCommands p commands) }

/-- Modelled from the spec: the argument validation performed by the external
module framework before execution, configured by `main`'s tables (source
lines 256-261): `lines`/`src` are mutually exclusive; `match=strict`,
`match=exact` and `replace=block` each require `lines`; `replace=config`
requires `src`; `match` and `replace` must be among their declared
choices. -/
def paramsValid (p : Params) : Bool :=
  decide (¬(p.lines.isSome = true ∧ p.src.isSome = true)
    ∧ (p.match_ = "strict" → p.lines.isSome = true)
    ∧ (p.match_ = "exact" → p.lines.isSome = true)
    ∧ (p.replace = "block" → p.lines.isSome = true)
    ∧ (p.replace = "config" → p.src.isSome = true)
    ∧ p.match_ ∈ ["line", "strict", "exact", "none"]
    ∧ p.replace ∈ ["line", "block", "config"])

/-- Embeds `main` (source lines 233-278; named main_ because Lean reserves main): parameters are validated first
(rejection happens before any device access); when `backup` is requested the
pre-change running-config text is stored verbatim in the result; then `run`
executes and its outcome is returned. -/
def main_ (p : Params) (fs : String → Option String) (device : String)
    (push : List String → String) : Except String MainResult :=
  if paramsValid p then
    match run p fs device push with
    | Except.ok r =>
      Except.ok { changed := r.changed,
                  backup := if p.backup then some device else none,
                  commands := r.commands, diff := r.diff, pushed := r.pushed }
    | Except.error e => Except.error e
  else
    Except.error "InvalidPolicyCombinationError"

/-- Default parameter record: nothing supplied, `match` and `replace` at
their declared defaults. -/
def defaultParams : Params :=
  { src := none, lines := none, parents := none, before := none, after := none,
    match_ := "line", replace := "line", config := none, backup := false }

/-- An empty control-host filesystem. -/
def fsEmpty : String → Option String := fun _ => none

/-- Concrete parameters for the bracketing witness: inline lines with before
and after hooks, matching skipped. -/
def pBracketW : Params :=
  { defaultParams with lines := some ["a"], before := some ["enable"],
                       after := some ["done"], match_ := "none" }

/-- Concrete parameters for the backup witness. -/
def pBackupW : Params :=
  { defaultParams with lines := some ["a"], match_ := "none", backup := true }

/-- A list whose elements all falsify a boolean predicate filters to the
empty list. -/
theorem filter_eq_nil_of_false {α : Type} (T : List α) (q : α → Bool)
    (h : ∀ l, l ∈ T → q l = false) : T.filter q = [] := by
  induction T with
  | nil => rfl
  | cons a t ih =>
    have ha : q a = false := h a (List.mem_cons_self a t)
    have ht : t.filter q = [] := ih (fun l hl => h l (List.mem_cons_of_mem a hl))
    simp [List.filter_cons, ha, ht]

/-- A boolean predicate falsified by every element makes `List.any` false. -/
theorem any_eq_false_of {α : Type} (T : List α) (q : α → Bool)
    (h : ∀ l, l ∈ T → q l = false) : T.any q = false := by
  induction T with
  | nil => rfl
  | cons a t ih =>
    have ha : q a = false := h a (List.mem_cons_self a t)
    have ht : t.any q = false := ih (fun l hl => h l (List.mem_cons_of_mem a hl))
    simp [List.any_cons, ha, ht]

/-- Position-sensitive comparison of a tree with itself never mismatches. -/
theorem strictMismatch_self (c : List ConfigLine) (l : ConfigLine) :
    strictMismatch c c l = false := by
  unfold strictMismatch
  apply any_eq_false_of
  intro i _
  apply decide_eq_false
  intro hcon
  exact hcon.2 hcon.1

/-- No line of a tree is selected as missing when the tree is compared with
itself, under any match policy. -/
theorem selectedB_self (X : List ConfigLine) (path : List String) (m : String)
    (l : ConfigLine) (hl : l ∈ X) : selectedB X X path m l = false := by
  unfold selectedB
  by_cases hp : path.isPrefixOf l.parents = true
  · rw [hp, Bool.true_and]
    by_cases hm1 : m = "line"
    · rw [if_pos hm1]
      have hmem : l ∈ subtree X path := by
        unfold subtree
        exact List.mem_filter.mpr ⟨hl, hp⟩
      rw [decide_eq_true hmem]
      rfl
    · rw [if_neg hm1]
      by_cases hm2 : m = "strict"
      · rw [if_pos hm2]
        exact strictMismatch_self _ _
      · rw [if_neg hm2]
        by_cases hm3 : m = "exact"
        · rw [if_pos hm3, decide_eq_true rfl]
          rfl
        · rw [if_neg hm3]
  · have hp2 : path.isPrefixOf l.parents = false := by
      cases hb : path.isPrefixOf l.parents
      · rfl
      · exact absurd hb hp
    rw [hp2, Bool.false_and]

/-- Block widening selects nothing when the tree is compared with itself. -/
theorem blockSel_self (X : List ConfigLine) (path : List String) (m : String)
    (l : ConfigLine) : blockSel X X path m l = false := by
  unfold blockSel
  apply any_eq_false_of
  intro x hx
  have hxX : x ∈ X := by
    unfold subtree at hx
    exact (List.mem_filter.mp hx).1
  rw [selectedB_self X path m x hxX, Bool.false_and]

/-- Claim C2 (amended): applying a configuration to itself yields no
commands whenever diffing actually takes place, that is for every tree,
every path, every match policy in line, strict, exact and every replace
policy in line, block.  (For match = none, and for replace = config, the
diff is skipped and the candidate is returned verbatim, so the sequence is
not empty for non-empty trees.) -/
theorem diff_self_empty (X : List ConfigLine) (path : List String) (m r : String)
    (hm : m ∈ ["line", "strict", "exact"]) (hr : r ∈ ["line", "block"]) :
    difference X X path m r = [] := by
  have hrc : r ≠ "config" := by
    intro hcon
    rw [hcon] at hr
    exact absurd hr (by decide)
  have hmn : m ≠ "none" := by
    intro hcon
    rw [hcon] at hm
    exact absurd hm (by decide)
  have hself : ∀ l, l ∈ X →
      (if r = "block" then blockSel X X path m else selectedB X X path m) l = false := by
    intro l hl
    by_cases hb : r = "block"
    · rw [if_pos hb]
      exact blockSel_self X path m l
    · rw [if_neg hb]
      exact selectedB_self X path m l hl
  unfold difference
  rw [if_neg hrc, if_neg hmn]
  unfold emitWithContext
  apply filter_eq_nil_of_false
  intro l hl
  dsimp only
  rw [hself l hl, Bool.false_or]
  apply any_eq_false_of
  intro x hx
  dsimp only
  rw [hself x hx, Bool.false_and]

/-- Claim C2, counterexample: as stated the claim also quantifies over
match = none, where the diff of a non-empty tree with itself is the full
candidate, not the empty command sequence. -/
theorem diff_self_matchNone_nonempty :
    difference [ConfigLine.mk "a" []] [ConfigLine.mk "a" []] [] "none" "line" ≠ [] := by
  decide

/-- Claim C2, witness: the amended idempotence theorem applied at a concrete
one-line tree with match = line, replace = line. -/
theorem diff_self_empty_witness :
    difference [ConfigLine.mk "a" []] [ConfigLine.mk "a" []] [] "line" "line" = [] :=
  diff_self_empty [ConfigLine.mk "a" []] [] "line" "line" (by decide) (by decide)

/-- Claim C1 (amended): when the match policy is none, diffing is skipped
and the command set is the full candidate configuration (all of
candidate.items) verbatim — regardless of the running configuration, and not
narrowed to the subtree under the parents path. -/
theorem matchNone_full_candidate (p : Params) (fs : String → Option String)
    (h : p.match_ = "none") (device : String) :
    computeCommands p fs device = get_candidate p fs := by
  have hcond : ¬(p.match_ ≠ "none" ∧ p.replace ≠ "config") := fun hcon => hcon.1 h
  cases hg : get_candidate p fs with
  | error e => simp [computeCommands, hg]
  | ok candidate => simp [computeCommands, hg, hcond]

/-- Claim C1, counterexample: with the candidate loaded from a source file
holding two top-level commands and parents = ["a"], match = none produces
the whole candidate — not the candidate subtree under the given parent path,
which is empty here. -/
theorem matchNone_not_path_narrowed :
    computeCommands
        { defaultParams with src := some "c.cfg", parents := some ["a"], match_ := "none" }
        (fun s => if s = "c.cfg" then some "a\nb" else none) ""
      = Except.ok [ConfigLine.mk "a" [], ConfigLine.mk "b" []] ∧
    fullSubtreeUnderPath [ConfigLine.mk "a" [], ConfigLine.mk "b" []] ["a"] = [] := by
  constructor
  · rfl
  · rfl

/-- Claim C1, witness: the amended theorem applied at concrete parameters
with inline lines and match = none. -/
theorem matchNone_full_candidate_witness :
    ({ defaultParams with lines := some ["hostname x"], match_ := "none" } : Params).match_
      = "none" ∧
    computeCommands { defaultParams with lines := some ["hostname x"], match_ := "none" }
        fsEmpty "dev"
      = get_candidate { defaultParams with lines := some ["hostname x"], match_ := "none" }
          fsEmpty :=
  ⟨rfl, matchNone_full_candidate _ fsEmpty rfl "dev"⟩

/-- When the lines-or-src gate is truthy, assembly is exactly the before
list, then the dumped diff result, then the after list. -/
theorem assembleCommands_eq (p : Params) (c : List ConfigLine)
    (hg : (optListTruthy p.lines || optStrTruthy p.src) = true) :
    assembleCommands p c = p.before.getD [] ++ dumps_commands c ++ p.after.getD [] := by
  unfold assembleCommands
  rw [if_pos hg]
  have hb : (if optListTruthy p.before then p.before.getD [] ++ dumps_commands c
             else dumps_commands c) = p.before.getD [] ++ dumps_commands c := by
    by_cases hbt : optListTruthy p.before = true
    · rw [if_pos hbt]
    · have hnil : p.before.getD [] = [] := by
        by_contra hx
        unfold optListTruthy at hbt
        exact hbt (decide_eq_true hx)
      rw [if_neg hbt, hnil, List.nil_append]
  have ha : (if optListTruthy p.after then p.after.getD [] else [])
      = p.after.getD [] := by
    by_cases hat : optListTruthy p.after = true
    · rw [if_pos hat]
    · have hnil : p.after.getD [] = [] := by
        by_contra hx
        unfold optListTruthy at hat
        exact hat (decide_eq_true hx)
      rw [if_neg hat, hnil]
  rw [hb, ha, List.append_assoc]

/-- Claim C3: when the diff result is non-empty and the candidate came from
inline lines or a src file, the assembled command sequence (both the
reported commands and the list handed to the push collaborator) is the
before list, then the diff result, then the after list; when the diff
result is empty, before and after are not applied and no commands are
produced at all. -/
theorem before_after_bracketing (p : Params) (fs : String → Option String)
    (device : String) (cmds : List ConfigLine)
    (h : computeCommands p fs device = Except.ok cmds) :
    (cmds ≠ [] → (optListTruthy p.lines || optStrTruthy p.src) = true →
      ∀ push : List String → String, ∃ r : RunResult,
        run p fs device push = Except.ok r ∧
        r.commands = some (p.before.getD [] ++ dumps_commands cmds ++ p.after.getD []) ∧
        r.pushed = some (p.before.getD [] ++ dumps_commands cmds ++ p.after.getD [])) ∧
    (cmds = [] → ∀ push : List String → String,
      run p fs device push
        = Except.ok { commands := none, diff := none, changed := false, pushed := none }) := by
  constructor
  · intro hne hg push
    have ha : assembleCommands p cmds
        = p.before.getD [] ++ dumps_commands cmds ++ p.after.getD [] :=
      assembleCommands_eq p cmds hg
    by_cases hp : push (assembleCommands p cmds) = ""
    · refine ⟨{ commands := some (assembleCommands p cmds), diff := none, changed := false,
                pushed := some (assembleCommands p cmds) }, ?_, ?_, ?_⟩
      · simp [run, h, hne, hp, hg]
      · simp only [ha]
      · simp only [ha]
    · refine ⟨{ commands := some (assembleCommands p cmds),
                diff := some (push (assembleCommands p cmds)), changed := true,
                pushed := some (assembleCommands p cmds) }, ?_, ?_, ?_⟩
      · simp [run, h, hne, hp, hg]
      · simp only [ha]
      · simp only [ha]
  · intro he push
    subst he
    simp [run, h]

/-- Claim C3, witness: with inline lines ["a"], before = ["enable"] and
after = ["done"], the assembled output is ["enable", "a", "done"] in both
the reported commands and the pushed list. -/
theorem before_after_bracketing_witness :
    computeCommands pBracketW fsEmpty "dev" = Except.ok [ConfigLine.mk "a" []] ∧
    (∃ r : RunResult, run pBracketW fsEmpty "dev" (fun _ => "") = Except.ok r ∧
      r.commands = some (["enable"] ++ dumps_commands [ConfigLine.mk "a" []] ++ ["done"]) ∧
      r.pushed = some (["enable"] ++ dumps_commands [ConfigLine.mk "a" []] ++ ["done"])) :=
  ⟨rfl, (before_after_bracketing pBracketW fsEmpty "dev" [ConfigLine.mk "a" []] rfl).1
    (by decide) (by decide) (fun _ => "")⟩

/-- Claim C4: replace = config bypasses diffing altogether — the command set
is the whole candidate (candidate.items), exactly as for match = none and
independent of the device's running configuration; and replace = config
without a src source file is rejected at validation, before any device
interaction, for every device text and push collaborator. -/
theorem replaceConfig_bypass_and_requires_src :
    (∀ (p : Params) (fs : String → Option String) (device : String),
      p.replace = "config" → computeCommands p fs device = get_candidate p fs) ∧
    (∀ (p : Params) (fs : String → Option String) (device : String)
        (push : List String → String),
      p.replace = "config" → p.src = none →
      main_ p fs device push = Except.error "InvalidPolicyCombinationError") := by
  constructor
  · intro p fs device h
    have hcond : ¬(p.match_ ≠ "none" ∧ p.replace ≠ "config") := fun hcon => hcon.2 h
    cases hg : get_candidate p fs with
    | error e => simp [computeCommands, hg]
    | ok candidate => simp [computeCommands, hg, hcond]
  · intro p fs device push h hs
    have hv : paramsValid p = false := by
      unfold paramsValid
      apply decide_eq_false
      intro hbig
      have hsome : p.src.isSome = true := hbig.2.2.2.2.1 h
      rw [hs] at hsome
      exact absurd hsome (by decide)
    unfold main_
    rw [hv]
    rfl

/-- Claim C4, witness: the bypass equality at concrete parameters with a
source file, and the rejection at concrete parameters lacking src. -/
theorem replaceConfig_witness :
    computeCommands { defaultParams with src := some "c.cfg", replace := "config" }
        (fun s => if s = "c.cfg" then some "a\nb" else none) "dev"
      = get_candidate { defaultParams with src := some "c.cfg", replace := "config" }
          (fun s => if s = "c.cfg" then some "a\nb" else none) ∧
    main_ { defaultParams with replace := "config" } fsEmpty "dev" (fun _ => "")
      = Except.error "InvalidPolicyCombinationError" :=
  ⟨replaceConfig_bypass_and_requires_src.1 _ _ "dev" rfl,
   replaceConfig_bypass_and_requires_src.2 _ fsEmpty "dev" (fun _ => "") rfl rfl⟩

/-- Claim C5: when the computed command sequence is empty, no push is
performed and no modification is reported — run yields changed = false with
no commands entry and nothing handed to the push collaborator, and (when the
parameters are valid) main_ reports changed = false likewise. -/
theorem empty_commands_no_push (p : Params) (fs : String → Option String)
    (device : String) (h : computeCommands p fs device = Except.ok []) :
    ∀ push : List String → String,
      run p fs device push
        = Except.ok { commands := none, diff := none, changed := false, pushed := none } ∧
      (paramsValid p = true →
        main_ p fs device push
          = Except.ok { changed := false,
                        backup := if p.backup then some device else none,
                        commands := none, diff := none, pushed := none }) := by
  intro push
  have hrun : run p fs device push
      = Except.ok { commands := none, diff := none, changed := false, pushed := none } := by
    simp [run, h]
  refine ⟨hrun, ?_⟩
  intro hv
  unfold main_
  rw [hv, hrun]
  rfl

/-- Claim C5, witness: with a falsy lines parameter and match = none the
computed command sequence is empty, and run reports no change and pushes
nothing even against a push collaborator that would report a diff. -/
theorem empty_commands_no_push_witness :
    computeCommands { defaultParams with lines := some [], match_ := "none" } fsEmpty "dev"
      = Except.ok [] ∧
    run { defaultParams with lines := some [], match_ := "none" } fsEmpty "dev"
        (fun _ => "bigdiff")
      = Except.ok { commands := none, diff := none, changed := false, pushed := none } :=
  ⟨rfl, (empty_commands_no_push { defaultParams with lines := some [], match_ := "none" }
    fsEmpty "dev" rfl (fun _ => "bigdiff")).1⟩

/-- Claim C6: every incompatible parameter combination is rejected by the
validation step before any device interaction: main_ fails with the
policy-combination error identically for every filesystem, device text and
push collaborator, so nothing is fetched or pushed. -/
theorem invalid_combination_fails_fast (p : Params) (h : paramsValid p = false) :
    ∀ (fs : String → Option String) (device : String) (push : List String → String),
      main_ p fs device push = Except.error "InvalidPolicyCombinationError" := by
  intro fs device push
  unfold main_
  rw [h]
  rfl

/-- Claim C6, witness: replace = block with no commands supplied is an
invalid combination and is rejected. -/
theorem invalid_combination_fails_fast_witness :
    paramsValid { defaultParams with replace := "block" } = false ∧
    main_ { defaultParams with replace := "block" } fsEmpty "dev" (fun _ => "")
      = Except.error "InvalidPolicyCombinationError" :=
  ⟨by decide, invalid_combination_fails_fast { defaultParams with replace := "block" }
    (by decide) fsEmpty "dev" (fun _ => "")⟩

/-- Claim C7: candidate-source precedence — when src is supplied and loading
it as a file path fails (no such file, an IOError), the very same src string
is parsed as inline raw configuration text; when the file exists its
contents are parsed; and only when src is absent are the inline lines (with
the optional parents path) used to build the candidate. -/
theorem src_fallback_precedence (fs : String → Option String) :
    (∀ (p : Params) (s : String), p.src = some s → s ≠ "" → fs s = none →
      get_candidate p fs = parse s) ∧
    (∀ (p : Params) (s c : String), p.src = some s → s ≠ "" → fs s = some c →
      get_candidate p fs = parse c) ∧
    (∀ p : Params, p.src = none →
      get_candidate p fs =
        (if optListTruthy p.lines then
          Except.ok (addCommands (p.parents.getD []) (p.lines.getD []))
         else Except.ok [])) := by
  refine ⟨?_, ?_, ?_⟩
  · intro p s hs hne hfs
    have ht : optStrTruthy p.src = true := by
      unfold optStrTruthy
      rw [hs]
      simp only [Option.getD_some]
      exact decide_eq_true hne
    unfold get_candidate
    rw [if_pos ht, hs]
    simp only [Option.getD_some]
    rw [hfs]
  · intro p s c hs hne hfs
    have ht : optStrTruthy p.src = true := by
      unfold optStrTruthy
      rw [hs]
      simp only [Option.getD_some]
      exact decide_eq_true hne
    unfold get_candidate
    rw [if_pos ht, hs]
    simp only [Option.getD_some]
    rw [hfs]
  · intro p hs
    unfold get_candidate
    rw [hs]
    rfl

/-- Claim C7, witness: against an empty filesystem, a src value that is not
a readable path is parsed as raw text. -/
theorem src_fallback_precedence_witness :
    get_candidate { defaultParams with src := some "hostname z" } fsEmpty
      = parse "hostname z" :=
  (src_fallback_precedence fsEmpty).1 { defaultParams with src := some "hostname z" }
    "hostname z" rfl (by decide) rfl

/-- Claim C8: when backup is requested and main_ succeeds, the result stores
the device's running configuration text verbatim; the text is taken before
any change is pushed (in this embedding the device text is the pre-change
running config by construction). -/
theorem backup_stores_prechange_config (p : Params) (fs : String → Option String)
    (device : String) (push : List String → String) (r : MainResult)
    (hb : p.backup = true) (h : main_ p fs device push = Except.ok r) :
    r.backup = some device := by
  unfold main_ at h
  by_cases hv : paramsValid p = true
  · rw [if_pos hv] at h
    cases hr : run p fs device push with
    | error e =>
      rw [hr] at h
      exact Except.noConfusion h
    | ok rr =>
      rw [hr] at h
      injection h with h2
      rw [← h2]
      show (if p.backup then some device else none) = some device
      rw [hb]
      rfl
  · rw [if_neg hv] at h
    exact Except.noConfusion h

/-- Claim C8, witness: a concrete successful run with backup requested
stores the device text verbatim. -/
theorem backup_stores_prechange_config_witness :
    pBackupW.backup = true ∧
    main_ pBackupW fsEmpty "running-cfg" (fun _ => "")
      = Except.ok { changed := false, backup := some "running-cfg",
                    commands := some ["a"], diff := none, pushed := some ["a"] } ∧
    ({ changed := false, backup := some "running-cfg", commands := some ["a"],
       diff := none, pushed := some ["a"] } : MainResult).backup = some "running-cfg" :=
  ⟨rfl, rfl,
   backup_stores_prechange_config pBackupW fsEmpty "running-cfg" (fun _ => "") _ rfl rfl⟩

/-- Claim C9: the base configuration for comparison is the config parameter
when it is supplied and non-empty, parsed as an indent-1 configuration tree;
only when config is absent or empty is the device's running configuration
text used and parsed instead. -/
theorem running_config_source (device : String) :
    (∀ (p : Params) (c : String), p.config = some c → c ≠ "" →
      get_running_config p device = parse c) ∧
    (∀ p : Params, optStrTruthy p.config = false →
      get_running_config p device = parse device) := by
  constructor
  · intro p c hc hne
    have ht : optStrTruthy p.config = true := by
      unfold optStrTruthy
      rw [hc]
      simp only [Option.getD_some]
      exact decide_eq_true hne
    unfold get_running_config
    rw [if_pos ht, hc]
    simp only [Option.getD_some]
  · intro p hf
    have ht : ¬(optStrTruthy p.config = true) := by
      rw [hf]
      exact Bool.false_ne_true
    unfold get_running_config
    rw [if_neg ht]

/-- Claim C9, witness: a supplied non-empty config parameter is the parsed
base, bypassing the device text. -/
theorem running_config_source_witness :
    get_running_config { defaultParams with config := some "hostname q" } "devtext"
      = parse "hostname q" :=
  (running_config_source "devtext").1 { defaultParams with config := some "hostname q" }
    "hostname q" rfl (by decide)

/-- Claim C10: lines and src are mutually exclusive, and match = strict and
match = exact each require lines; each violation is rejected at argument
validation, before execution, identically for every filesystem, device and
push collaborator. -/
theorem mutex_and_required_lines_rejected (p : Params)
    (h : (p.lines.isSome = true ∧ p.src.isSome = true)
        ∨ (p.match_ = "strict" ∧ p.lines = none)
        ∨ (p.match_ = "exact" ∧ p.lines = none)) :
    ∀ (fs : String → Option String) (device : String) (push : List String → String),
      main_ p fs device push = Except.error "InvalidPolicyCombinationError" := by
  have hv : paramsValid p = false := by
    unfold paramsValid
    apply decide_eq_false
    intro hbig
    rcases h with ⟨h1, h2⟩ | ⟨h1, h2⟩ | ⟨h1, h2⟩
    · exact hbig.1 ⟨h1, h2⟩
    · have hsome : p.lines.isSome = true := hbig.2.1 h1
      rw [h2] at hsome
      exact absurd hsome (by decide)
    · have hsome : p.lines.isSome = true := hbig.2.2.1 h1
      rw [h2] at hsome
      exact absurd hsome (by decide)
  intro fs device push
  unfold main_
  rw [hv]
  rfl

/-- Claim C10, witness: supplying both lines and src is rejected. -/
theorem mutex_and_required_lines_rejected_witness :
    main_ { defaultParams with lines := some ["a"], src := some "f" } fsEmpty "dev"
        (fun _ => "")
      = Except.error "InvalidPolicyCombinationError" :=
  mutex_and_required_lines_rejected
    { defaultParams with lines := some ["a"], src := some "f" }
    (Or.inl ⟨rfl, rfl⟩) fsEmpty "dev" (fun _ => "")
